import Mathlib

/-!
# JsonBenchmarkCpp: the benchmark harness of `main.cpp`

A shallow embedding of the harness in `src/main.cpp` (the iteration sizer, the
backend adapters, `printBenchmark`, `testJson`, `testXml`) and the properties
proved about it.

Conventions of the embedding.

* `size_t` / `unsigned long long` values are natural numbers below `2 ^ 64`;
  every unsigned operation is reduced modulo `2 ^ 64` explicitly.
* `int` values are integers in `[-2 ^ 31, 2 ^ 31)`; `static_cast<int>` of an
  unsigned value keeps the low 32 bits in two's complement.
* `double` values are rationals.  The three arithmetic operations of the
  percentage expression are each rounded to 53 significant bits (to nearest,
  ties to even) by `roundToDouble`; the exponent range is not bounded, so
  overflow, subnormal numbers, infinities and NaN are outside the embedding.
  An operation whose C++ behaviour is undefined (conversion to `int` of a
  value that is not finite or does not fit) yields `none`.
* The wrapped libraries are parameters: a backend is a pair of functions, and
  an error raised by a backend is a value of `StdException`.
-/

namespace JsonBenchmark

/-! ## Machine integers -/

/-- Modulus of `size_t` and `unsigned long long` arithmetic. -/
def U64 : Nat := 2 ^ 64

/-- The working-set target `512ull * 1024 * 1024` of lines 433 and 491. -/
def TARGET_BYTES : Nat := 512 * 1024 * 1024

/-- Conversion `static_cast<int>(x)` of an unsigned 64-bit value: the low 32
bits, read in two's complement. -/
def toInt32 (x : Nat) : Int :=
  if x % 2 ^ 32 < 2 ^ 31 then ((x % 2 ^ 32 : Nat) : Int)
  else ((x % 2 ^ 32 : Nat) : Int) - 2 ^ 32

/-- Conversion of an `int` to `size_t` (the usual arithmetic conversion applied
to `iter_count` in `jsonString.size() * iter_count`): reduction modulo
`2 ^ 64`. -/
def toU64 (i : Int) : Nat := (i % (2 ^ 64 : Int)).toNat

/-- The unsigned numerator `512ull * 1024 * 1024 + buff.size() - 1`, evaluated
left to right, each operation modulo `2 ^ 64` (subtracting one is adding
`2 ^ 64 - 1`). -/
def sizerNumerator (size : Nat) : Nat :=
  ((TARGET_BYTES + size) % U64 + (U64 - 1)) % U64

/-- The unsigned quotient `(512ull * 1024 * 1024 + buff.size() - 1) / buff.size()`
before the cast; dividing by zero is undefined. -/
def sizerQuotient (size : Nat) : Option Nat :=
  if size = 0 then none else some (sizerNumerator size / size)

/-- Lines 433 and 491:
`int iter_count = static_cast<int>((512ull * 1024 * 1024 + buff.size() - 1) / buff.size());` -/
def iterCount (size : Nat) : Option Int :=
  (sizerQuotient size).map toInt32

/-- The statement `iter_count /= k;` on an `int` (k = 10 in `cajunBenchmark`
and `jsonspiritBenchmark`, k = 2 in `jsonCppBenchmark`): division truncating
toward zero. -/
def scaleIter (iter_count : Int) (k : Int) : Int := Int.tdiv iter_count k

/-- Number of times the body of `for (int i = 0; i < iter_count; i++)` runs. -/
def loopTrips (iter_count : Int) : Nat := iter_count.toNat

/-- The throughput numerator `jsonString.size() * iter_count`: `iter_count` is
converted to `size_t` and the product is taken modulo `2 ^ 64`. -/
def bytesProcessed (size : Nat) (iter_count : Int) : Nat :=
  (size * toU64 iter_count) % U64

/-! ## Backends and samples -/

/-- An error raised by a wrapped library: an object of a class derived from
`std::exception`, which is what `catch (const std::exception&)` catches. -/
structure StdException where
  what : String
deriving DecidableEq

/-- Contents of a `std::string` buffer. -/
abbrev Bytes := List UInt8

/-- A throughput sample `std::pair<double, double>`: parse and write speed in
bytes per second. -/
abbrev Sample := ℚ × ℚ

/-- A wrapped library with a retained model of type `M`, together with the two
durations `std::chrono::duration<double>(time2 - time1).count()` that the
clock reports around its parse loop and its write loop. -/
structure Backend (M : Type) where
  init : M
  parse : Bytes → Except StdException M
  write : M → Except StdException Bytes
  parseSeconds : ℚ
  writeSeconds : ℚ

/-- A streaming library (the callbacks of `uxs::db::json::read`, the iterator
of `uxs::db::xml::parser`): one traversal of the buffer that retains
nothing, with the duration the clock reports around the scan loop. -/
structure Scanner where
  scan : Bytes → Except StdException Unit
  seconds : ℚ

/-- A loop `for (int i = 0; i < iter_count; i++) { x = op(); }`: run `op` the
given number of times, keep the last result, stop at the first error. -/
def repeatLast {α : Type} (op : Except StdException α) : Nat → α → Except StdException α
  | 0, x => .ok x
  | n + 1, _ =>
    match op with
    | .error e => .error e
    | .ok x => repeatLast op n x

/-- The quotient `bytes / seconds` in `double`, for a non-zero duration.  (With
a zero duration C++ yields an infinity or NaN, which the embedding does not
represent; no property below relies on the value for a zero duration.) -/
def speed (bytes : Nat) (seconds : ℚ) : ℚ := (bytes : ℚ) / seconds

/-- The body shared by the adapters with a retained model (lines 106-132,
148-173, 185-200, 234-256, 270-291, 299-325, 332-361, 393-413): the timed
parse loop, `parse_speed`, the timed write loop, and the returned pair.  The
file the adapter writes with `std::ofstream` is not part of the result. -/
def timedParseAndWrite {M : Type} (lib : Backend M) (jsonString : Bytes) (iter_count : Int) :
    Except StdException Sample :=
  match repeatLast (lib.parse jsonString) (loopTrips iter_count) lib.init with
  | .error e => .error e
  | .ok model =>
    let parse_speed := speed (bytesProcessed jsonString.length iter_count) lib.parseSeconds
    match repeatLast (lib.write model) (loopTrips iter_count) [] with
    | .error e => .error e
    | .ok s_out =>
      .ok (parse_speed, speed (bytesProcessed s_out.length iter_count) lib.writeSeconds)

/-- The body shared by the streaming adapters (lines 371-384 and 454-469): the
timed scan loop and the returned pair, whose second component is the literal
`0`. -/
def timedScan (lib : Scanner) (jsonString : Bytes) (iter_count : Int) :
    Except StdException Sample :=
  match repeatLast (lib.scan jsonString) (loopTrips iter_count) () with
  | .error e => .error e
  | .ok _ => .ok (speed (bytesProcessed jsonString.length iter_count) lib.seconds, 0)

/-- The handler `try { ... } catch (const std::exception&) { return {0, 0}; }`. -/
def catchStdException (body : Except StdException Sample) : Except StdException Sample :=
  match body with
  | .error _ => .ok (0, 0)
  | .ok s => .ok s

/-! ## The adapters

Each adapter returns `.ok sample` when the C++ function returns, and
`.error e` when the exception `e` leaves the function. -/

/-- Lines 100-135: `iter_count /= 10`, body inside `try`/`catch`. -/
def cajunBenchmark {M : Type} (lib : Backend M) (_name : String) (jsonString : Bytes)
    (iter_count : Int) : Except StdException Sample :=
  catchStdException (timedParseAndWrite lib jsonString (scaleIter iter_count 10))

/-- Lines 143-174: `iter_count /= 10`, no handler. -/
def jsonspiritBenchmark {M : Type} (lib : Backend M) (_name : String) (jsonString : Bytes)
    (iter_count : Int) : Except StdException Sample :=
  timedParseAndWrite lib jsonString (scaleIter iter_count 10)

/-- Lines 209-222: `json_parse` and `json_value_free` are C functions, they
raise nothing and their results are discarded; the adapter returns
`{size * iter_count / elapsed, 0}`. -/
def jsonparserBenchmark (seconds : ℚ) (_name : String) (jsonString : Bytes)
    (iter_count : Int) : Except StdException Sample :=
  .ok (speed (bytesProcessed jsonString.length iter_count) seconds, 0)

/-- Lines 294-326: `iter_count /= 2`, no handler. -/
def jsonCppBenchmark {M : Type} (lib : Backend M) (_name : String) (jsonString : Bytes)
    (iter_count : Int) : Except StdException Sample :=
  timedParseAndWrite lib jsonString (scaleIter iter_count 2)

/-- Lines 328-364: no scaling, body inside `try`/`catch`. -/
def uxsDbJsonBenchmark {M : Type} (lib : Backend M) (_name : String) (jsonString : Bytes)
    (iter_count : Int) : Except StdException Sample :=
  catchStdException (timedParseAndWrite lib jsonString iter_count)

/-- Lines 366-387: streaming scan inside `try`/`catch`. -/
def uxsDbJsonBenchmark_SAX (lib : Scanner) (_name : String) (jsonString : Bytes)
    (iter_count : Int) : Except StdException Sample :=
  catchStdException (timedScan lib jsonString iter_count)

/-- Lines 389-414: no scaling, no handler. -/
def nlohmannBenchmark {M : Type} (lib : Backend M) (_name : String) (jsonString : Bytes)
    (iter_count : Int) : Except StdException Sample :=
  timedParseAndWrite lib jsonString iter_count

/-- Lines 450-472: streaming scan inside `try`/`catch`. -/
def uxsDbXmlBenchmark_SAX (lib : Scanner) (_name : String) (xmlString : Bytes)
    (iter_count : Int) : Except StdException Sample :=
  catchStdException (timedScan lib xmlString iter_count)

/-! ## The reporter -/

/-- Output of `std::setw(w) << s` with the default fill and adjustment: `s`
padded on the left with blanks to width `w`, never truncated. -/
def setw (w : Nat) (s : String) : String :=
  String.mk (List.replicate (w - s.length) ' ') ++ s

/-- Rounding of a rational to the nearest integer, ties to the even one. -/
def roundHalfEven (x : ℚ) : Int :=
  let f : Int := ⌊x⌋
  if x - f < 1 / 2 then f else if 1 / 2 < x - f then f + 1 else if f % 2 = 0 then f else f + 1

/-- The `double` that one arithmetic operation delivers when its exact result
is `x`: `x` rounded to 53 significant bits, to nearest, ties to even (the unit
in the last place of `x` is `2 ^ (e - 52)` for `2 ^ e ≤ |x| < 2 ^ (e + 1)`).
The exponent range is not bounded. -/
def roundToDouble (x : ℚ) : ℚ :=
  if x = 0 then 0
  else
    let ulp : ℚ := 2 ^ (Int.log 2 |x| - 52)
    roundHalfEven (x / ulp) * ulp

/-- The expression `static_cast<int>(floor(.5 + (100. * v) / r))` of lines 79
and 86: the product, the quotient and the sum are each rounded to `double`
(the constants `100.` and `.5` are exact, and so is `floor`).  With `r = 0`
the quotient is not finite, and a value outside the range of `int` cannot be
converted: both conversions are undefined. -/
def percent (v r : ℚ) : Option Int :=
  if r = 0 then none
  else
    let quotient : ℚ := roundToDouble (roundToDouble (100 * v) / r)
    let p : Int := ⌊roundToDouble (1 / 2 + quotient)⌋
    if -(2 ^ 31) ≤ p ∧ p < 2 ^ 31 then some p else none

/-- The blank-padded `n/a` field of lines 82 and 89. -/
def naColumn : String := setw 25 "n/a" ++ "              "

/-- One throughput column of `printBenchmark` (lines 77-83 for `.first`, lines
84-90 for `.second`).  `fixed2 x` is the text `std::fixed << std::setprecision(2)`
produces for the `double` product whose exact value is `x`; the rounding of
that product is part of `fixed2`. -/
def column (fixed2 : ℚ → String) (v r : ℚ) : Option String :=
  if v ≠ 0 then
    match percent v r with
    | none => none
    | some p =>
      some (setw 25 (fixed2 (0.000001 * v)) ++ " MiB/s (" ++ setw 4 (toString p) ++ "%)")
  else some naColumn

/-- Lines 75-92: the text `printBenchmark(name, time, ref)` writes to
`std::cout`, or `none` when it runs into undefined behaviour. -/
def printBenchmark (fixed2 : ℚ → String) (name : String) (time ref : Sample) : Option String :=
  match column fixed2 time.1 ref.1, column fixed2 time.2 ref.2 with
  | some c1, some c2 => some (setw 25 name ++ c1 ++ c2 ++ "\n")
  | _, _ => none

/-- Line 435 (and 493): the header line. -/
def headerLine : String :=
  setw 25 "#library" ++ setw 25 "parsing" ++ setw 39 "writing" ++ "\n"

/-! ## The orchestrator -/

/-- How a run of the process stands: still running (or returned normally),
ended by `exit(code)`, ended by an exception that nothing catches, or in
undefined behaviour. -/
inductive Status
  | normal
  | exited (code : Nat)
  | terminated (e : StdException)
  | undefined
deriving DecidableEq

/-- What a run has done so far: the lines written to `std::cout`, the labels of
the rows whose adapter has been called, and the status. -/
structure Run where
  out : List String
  adapters : List String
  status : Status
deriving DecidableEq

/-- One statement `printBenchmark(label, adapter(name, buff, iter_count), ref);`
executed in the state `r`: nothing happens once the run has ended; otherwise
the adapter is called, and its sample is printed against `ref`. -/
def reportRow (fixed2 : ℚ → String) (ref : Sample) (r : Run)
    (row : String × Except StdException Sample) : Run :=
  match r.status with
  | .normal =>
    match row.2 with
    | .error e => { r with adapters := r.adapters ++ [row.1], status := .terminated e }
    | .ok time =>
      match printBenchmark fixed2 row.1 time ref with
      | none => { r with adapters := r.adapters ++ [row.1], status := .undefined }
      | some text => { r with out := r.out ++ [text], adapters := r.adapters ++ [row.1] }
  | _ => r

/-- Lines 437-447 (and 495-496): the first adapter's sample becomes `ref`, its
own row is printed against itself, and every further row against `ref`.  The
list holds, in order, each row's label and what its adapter call yields. -/
def report (fixed2 : ℚ → String) (rows : List (String × Except StdException Sample))
    (r : Run) : Run :=
  match rows with
  | [] => r
  | (label, first) :: rest =>
    match first with
    | .error e => { r with adapters := r.adapters ++ [label], status := .terminated e }
    | .ok ref => ((label, Except.ok ref) :: rest).foldl (reportRow fixed2 ref) r

/-- Rounding of an exact rational to the nearest integer with halves away from
zero, written from the specification's words ("round-half-away-from-zero");
it is compared with `percent`, which comes from the code. -/
def roundHalfAwayFromZero (x : ℚ) : Int :=
  if 0 ≤ x then ⌊x + 1 / 2⌋ else -⌊-x + 1 / 2⌋

/-! ## Concrete instances used to exercise the definitions -/

/-- A library that accepts every buffer and writes back two bytes; both loops
are measured at one second. -/
def acceptingBackend : Backend Unit :=
  { init := (), parse := fun _ => .ok (), write := fun _ => .ok [123, 125],
    parseSeconds := 1, writeSeconds := 1 }

/-- A library whose parser raises on every buffer. -/
def rejectingBackend : Backend Unit :=
  { init := (), parse := fun _ => .error ⟨"parse error"⟩, write := fun _ => .ok [],
    parseSeconds := 1, writeSeconds := 1 }

/-- A streaming library that accepts every buffer, measured at one second. -/
def acceptingScanner : Scanner :=
  { scan := fun _ => .ok (), seconds := 1 }

/-- A rendering with two decimals (nearest, ties to even) of a rational, as a
concrete value for the parameter `fixed2`. -/
def twoDecimals (q : ℚ) : String :=
  let a : ℚ := |q| * 100
  let f : Int := ⌊a⌋
  let n : Nat :=
    (if a - f < 1 / 2 then f else if 1 / 2 < a - f then f + 1
      else if f % 2 = 0 then f else f + 1).toNat
  let digits :=
    toString (n / 100) ++ "." ++ (if n % 100 < 10 then "0" else "") ++ toString (n % 100)
  if q < 0 then "-" ++ digits else digits

/-! ## Properties -/

/-! ### The iteration sizer -/

theorem sizerNumerator_exact (b : Nat) (hb : 0 < b) (hs : TARGET_BYTES + b - 1 < U64) :
    sizerNumerator b = TARGET_BYTES + b - 1 := by
  simp only [sizerNumerator, TARGET_BYTES, U64] at *
  norm_num at *
  omega

theorem ceilDiv_bounds (t b : Nat) (hb : 0 < b) :
    t ≤ (t + b - 1) / b * b ∧ (t + b - 1) / b * b < t + b := by
  have h1 : (t + b - 1) / b * b ≤ t + b - 1 := Nat.div_mul_le_self _ _
  have h2 : t + b - 1 < (t + b - 1) / b * b + b := Nat.lt_div_mul_add hb
  constructor <;> omega

theorem ceil_of_bounds (t b q : Nat) (hb : 0 < b) (h1 : t ≤ q * b) (h2 : q * b < t + b) :
    ⌈(t : ℚ) / (b : ℚ)⌉ = (q : Int) := by
  have hbq : (0 : ℚ) < (b : ℚ) := by exact_mod_cast hb
  have h1q : (t : ℚ) ≤ (q : ℚ) * (b : ℚ) := by exact_mod_cast h1
  have h2q : (q : ℚ) * (b : ℚ) < (t : ℚ) + (b : ℚ) := by exact_mod_cast h2
  rw [Int.ceil_eq_iff]
  constructor
  · rw [lt_div_iff₀ hbq]
    push_cast
    linarith
  · rw [div_le_iff₀ hbq]
    push_cast
    linarith

theorem ceilDiv_eq_ceil (t b : Nat) (hb : 0 < b) :
    ⌈(t : ℚ) / (b : ℚ)⌉ = (((t + b - 1) / b : Nat) : Int) :=
  ceil_of_bounds t b _ hb (ceilDiv_bounds t b hb).1 (ceilDiv_bounds t b hb).2

theorem toInt32_small (x : Nat) (h : x < 2 ^ 31) : toInt32 x = (x : Int) := by
  unfold toInt32
  have : x % 2 ^ 32 = x := Nat.mod_eq_of_lt (by omega)
  rw [this, if_pos h]

theorem ceilDiv_pos (t b : Nat) (ht : 0 < t) (hb : 0 < b) : 1 ≤ (t + b - 1) / b := by
  rw [Nat.one_le_div_iff hb]
  omega

theorem ceilDiv_le (t b : Nat) (hb : 0 < b) : (t + b - 1) / b ≤ t := by
  have h := (ceilDiv_bounds t b hb).2
  by_contra hc
  push_neg at hc
  have h3 : (t + 1) * b ≤ (t + b - 1) / b * b := Nat.mul_le_mul_right b hc
  have h4 : t * 1 ≤ t * b := Nat.mul_le_mul_left t hb
  rw [Nat.add_mul] at h3
  omega

theorem iterCount_exact (b : Nat) (hb : 0 < b) (hs : TARGET_BYTES + b - 1 < U64) :
    iterCount b = some (((TARGET_BYTES + b - 1) / b : Nat) : Int) := by
  have hq : (TARGET_BYTES + b - 1) / b ≤ TARGET_BYTES := ceilDiv_le _ _ hb
  have hlt : (TARGET_BYTES + b - 1) / b < 2 ^ 31 := by
    have : TARGET_BYTES < 2 ^ 31 := by norm_num [TARGET_BYTES]
    omega
  simp only [iterCount, sizerQuotient, if_neg (Nat.pos_iff_ne_zero.mp hb), Option.map_some',
    sizerNumerator_exact b hb hs, toInt32_small _ hlt]

/-- Claim C1. For a positive buffer size whose sum `512 MiB + size - 1` fits in
64 bits, the iteration count of lines 433 and 491 is `ceil(536870912 / size)`;
it is at least 1, `count * size` reaches the target and exceeds it by less
than one buffer.  A buffer of 536870912 bytes gives 1, a quarter of it gives 4. -/
theorem iterCount_is_ceil (b : Nat) (hb : 0 < b) (hs : 512 * 1024 * 1024 + b - 1 < 2 ^ 64) :
    (∃ n : Int, iterCount b = some n ∧ n = ⌈(536870912 : ℚ) / (b : ℚ)⌉ ∧ 1 ≤ n ∧
        (536870912 : Int) ≤ n * b ∧ n * b < 536870912 + b) ∧
      iterCount 536870912 = some 1 ∧ iterCount (536870912 / 4) = some 4 := by
  have hs' : TARGET_BYTES + b - 1 < U64 := by simpa [TARGET_BYTES, U64] using hs
  refine ⟨⟨_, iterCount_exact b hb hs', ?_, ?_, ?_, ?_⟩, ?_, ?_⟩
  · have := ceilDiv_eq_ceil TARGET_BYTES b hb
    rw [← this]; norm_num [TARGET_BYTES]
  · exact_mod_cast ceilDiv_pos TARGET_BYTES b (by norm_num [TARGET_BYTES]) hb
  · have := (ceilDiv_bounds TARGET_BYTES b hb).1
    have h2 : ((TARGET_BYTES : Nat) : Int) ≤ (((TARGET_BYTES + b - 1) / b * b : Nat) : Int) := by
      exact_mod_cast this
    simpa [TARGET_BYTES] using h2
  · have := (ceilDiv_bounds TARGET_BYTES b hb).2
    have h2 : ((((TARGET_BYTES + b - 1) / b * b : Nat) : Int)) < ((TARGET_BYTES + b : Nat) : Int) := by
      exact_mod_cast this
    simpa [TARGET_BYTES] using h2
  · rw [iterCount_exact _ (by norm_num) (by norm_num [TARGET_BYTES, U64])]
    norm_num [TARGET_BYTES]
  · rw [iterCount_exact _ (by norm_num) (by norm_num [TARGET_BYTES, U64])]
    norm_num [TARGET_BYTES]

theorem iterCount_is_ceil_witness :
    (∃ n : Int, iterCount 3 = some n ∧ n = ⌈(536870912 : ℚ) / ((3 : Nat) : ℚ)⌉ ∧ 1 ≤ n ∧
        (536870912 : Int) ≤ n * (3 : Nat) ∧ n * (3 : Nat) < 536870912 + (3 : Nat)) ∧
      iterCount 536870912 = some 1 ∧ iterCount (536870912 / 4) = some 4 :=
  iterCount_is_ceil 3 (by decide) (by decide)

theorem toU64_natCast (q : Nat) (h : q < U64) : toU64 (q : Int) = q := by
  unfold toU64
  have : ((q : Int)) % (2 ^ 64 : Int) = (q : Int) := by
    apply Int.emod_eq_of_lt (by omega)
    have : q < 2 ^ 64 := h
    exact_mod_cast this
  rw [this]; simp

/-- Claim C9. For `1 ≤ b ≤ 2 ^ 64 - 2 ^ 29` the numerator computed modulo
`2 ^ 64` is the exact `2 ^ 29 + b - 1`, the quotient lies in `[1, 2 ^ 29]`, the
cast to `int` keeps it, and the product `b * iter_count` is below `2 ^ 29 + b`,
hence below `2 ^ 64`, so the throughput numerator is the exact product. -/
theorem sizing_no_wrap (b : Nat) (h1 : 1 ≤ b) (h2 : b ≤ 2 ^ 64 - 2 ^ 29) :
    sizerNumerator b = 512 * 1024 * 1024 + b - 1 ∧
      ∃ q : Nat, sizerQuotient b = some q ∧ q = (512 * 1024 * 1024 + b - 1) / b ∧
        1 ≤ q ∧ q ≤ 2 ^ 29 ∧ iterCount b = some (q : Int) ∧
        b * q < 2 ^ 29 + b ∧ b * q < 2 ^ 64 ∧ bytesProcessed b (q : Int) = b * q := by
  have hb : 0 < b := h1
  have hs : TARGET_BYTES + b - 1 < U64 := by
    simp only [TARGET_BYTES, U64]; omega
  have hnum := sizerNumerator_exact b hb hs
  have hle : (TARGET_BYTES + b - 1) / b ≤ TARGET_BYTES := ceilDiv_le _ _ hb
  have hpos := ceilDiv_pos TARGET_BYTES b (by norm_num [TARGET_BYTES]) hb
  have hbd := (ceilDiv_bounds TARGET_BYTES b hb).2
  have hT : TARGET_BYTES = 2 ^ 29 := by norm_num [TARGET_BYTES]
  have hT' : (512 * 1024 * 1024 : Nat) = TARGET_BYTES := rfl
  rw [hT']
  refine ⟨hnum, (TARGET_BYTES + b - 1) / b, ?_, rfl, hpos, by omega, iterCount_exact b hb hs,
    ?_, ?_, ?_⟩
  · simp [sizerQuotient, Nat.pos_iff_ne_zero.mp hb, hnum]
  · rw [Nat.mul_comm]; omega
  · rw [Nat.mul_comm]; omega
  · have hlt : b * ((TARGET_BYTES + b - 1) / b) < U64 := by
      rw [Nat.mul_comm]; simp only [U64]; omega
    unfold bytesProcessed
    rw [toU64_natCast _ (by simp only [U64]; omega), Nat.mod_eq_of_lt hlt]

theorem sizing_no_wrap_witness :
    sizerNumerator 7 = 512 * 1024 * 1024 + 7 - 1 ∧
      ∃ q : Nat, sizerQuotient 7 = some q ∧ q = (512 * 1024 * 1024 + 7 - 1) / 7 ∧
        1 ≤ q ∧ q ≤ 2 ^ 29 ∧ iterCount 7 = some (q : Int) ∧
        7 * q < 2 ^ 29 + 7 ∧ 7 * q < 2 ^ 64 ∧ bytesProcessed 7 (q : Int) = 7 * q :=
  sizing_no_wrap 7 (by decide) (by decide)

theorem iterCount_wrapped (b : Nat) (h1 : 2 ^ 64 - 2 ^ 29 < b) (h2 : b < 2 ^ 64) :
    iterCount b = some 0 := by
  have hnum : sizerNumerator b < b := by
    simp only [sizerNumerator, TARGET_BYTES, U64]
    norm_num
    omega
  have hb : b ≠ 0 := by omega
  simp [iterCount, sizerQuotient, hb, Nat.div_eq_of_lt hnum, toInt32]

theorem ceilDiv_ge_iff (t b k : Nat) (hb : 0 < b) (hk : 0 < k) :
    k ≤ (t + b - 1) / b ↔ (k - 1) * b < t := by
  obtain ⟨h1, h2⟩ := ceilDiv_bounds t b hb
  constructor
  · intro h
    have h3 : k * b ≤ (t + b - 1) / b * b := Nat.mul_le_mul_right b h
    have h4 : k * b = (k - 1) * b + b := by
      conv_lhs => rw [show k = (k - 1) + 1 by omega]
      rw [Nat.add_mul, Nat.one_mul]
    omega
  · intro h
    have h3 : (k - 1) * b < (t + b - 1) / b * b := by omega
    have := Nat.lt_of_mul_lt_mul_right h3
    omega

theorem scaleIter_natCast (q k : Nat) : scaleIter (q : Int) (k : Int) = ((q / k : Nat) : Int) := by
  unfold scaleIter
  rw [Int.tdiv_eq_ediv (by omega) (by omega)]
  norm_cast

theorem scaled_of_size (b k : Nat) (hb : 0 < b) (hsz : b < 2 ^ 64) (hk : 2 ≤ k) :
    ∃ q : Nat, iterCount b = some (q : Int) ∧
      q / k = (TARGET_BYTES + b - 1) / b / k := by
  by_cases hw : b ≤ 2 ^ 64 - 2 ^ 29
  · exact ⟨_, iterCount_exact b hb (by simp only [TARGET_BYTES, U64]; omega), rfl⟩
  · refine ⟨0, iterCount_wrapped b (by omega) hsz, ?_⟩
    have h1 : (TARGET_BYTES + b - 1) / b = 1 := by
      apply Nat.div_eq_of_lt_le <;> simp only [TARGET_BYTES] <;> omega
    rw [h1, Nat.zero_div, Nat.div_eq_of_lt (by omega)]

theorem repeatLast_error {α : Type} (e : StdException) (n : Nat) (x : α) (hn : 0 < n) :
    repeatLast (Except.error e : Except StdException α) n x = .error e := by
  cases n with
  | zero => omega
  | succ m => rfl

theorem repeatLast_ok {α : Type} (y : α) (n : Nat) (x : α) :
    repeatLast (Except.ok y : Except StdException α) n x = .ok (if n = 0 then x else y) := by
  induction n generalizing x with
  | zero => rfl
  | succ m ih => simp [repeatLast, ih]

theorem timedParseAndWrite_zero {M : Type} (lib : Backend M) (s : Bytes) :
    timedParseAndWrite lib s 0 = .ok (speed 0 lib.parseSeconds, speed 0 lib.writeSeconds) := by
  have h1 : loopTrips 0 = 0 := rfl
  have h2 : ∀ n : Nat, bytesProcessed n 0 = 0 := by
    intro n; simp [bytesProcessed, toU64]
  simp only [timedParseAndWrite, h1, repeatLast, h2]

theorem loopTrips_natCast (c : Nat) : loopTrips (c : Int) = c := by
  simp [loopTrips]

theorem timedParseAndWrite_accepts {M : Type} (lib : Backend M) (s : Bytes) (c : Nat) (m : M)
    (out : Bytes) (hp : lib.parse s = .ok m) (hw : lib.write m = .ok out) :
    timedParseAndWrite lib s (c : Int) =
      .ok (speed (bytesProcessed s.length (c : Int)) lib.parseSeconds,
        speed (bytesProcessed out.length (c : Int)) lib.writeSeconds) := by
  rcases Nat.eq_zero_or_pos c with h0 | hc
  · subst h0
    have h2 : ∀ n : Nat, bytesProcessed n ((0 : Nat) : Int) = 0 := by
      intro n; simp [bytesProcessed, toU64]
    have h1 : loopTrips ((0 : Nat) : Int) = 0 := rfl
    simp only [timedParseAndWrite, h1, repeatLast, h2]
  · have hne : c ≠ 0 := Nat.pos_iff_ne_zero.mp hc
    simp only [timedParseAndWrite, loopTrips_natCast, hp, repeatLast_ok, if_neg hne, hw]

theorem timedParseAndWrite_raises {M : Type} (lib : Backend M) (s : Bytes) (c : Nat)
    (e : StdException) (hp : lib.parse s = .error e) :
    timedParseAndWrite lib s (c : Int) =
      if 1 ≤ c then .error e else .ok (speed 0 lib.parseSeconds, speed 0 lib.writeSeconds) := by
  rcases Nat.eq_zero_or_pos c with h0 | hc
  · subst h0
    simpa using timedParseAndWrite_zero lib s
  · have hn : 0 < loopTrips (c : Int) := by rw [loopTrips_natCast]; exact hc
    have h1 : 1 ≤ c := hc
    rw [if_pos h1]
    simp only [timedParseAndWrite, hp, repeatLast_error e _ _ hn]

theorem scaled_product (b k : Nat) (hb : 0 < b) (hsz : b < 2 ^ 64) (hk : 2 ≤ k) :
    ∃ q : Nat, iterCount b = some (q : Int) ∧
      q / k = (TARGET_BYTES + b - 1) / b / k ∧ b * (q / k) < U64 := by
  by_cases hw : b ≤ 2 ^ 64 - 2 ^ 29
  · refine ⟨_, iterCount_exact b hb (by simp only [TARGET_BYTES, U64]; omega), rfl, ?_⟩
    have h1 := (ceilDiv_bounds TARGET_BYTES b hb).2
    have h2 : (TARGET_BYTES + b - 1) / b / k ≤ (TARGET_BYTES + b - 1) / b := Nat.div_le_self _ _
    have h3 : b * ((TARGET_BYTES + b - 1) / b / k) ≤ b * ((TARGET_BYTES + b - 1) / b) :=
      Nat.mul_le_mul_left b h2
    rw [Nat.mul_comm b ((TARGET_BYTES + b - 1) / b)] at h3
    simp only [TARGET_BYTES, U64] at *
    omega
  · refine ⟨0, iterCount_wrapped b (by omega) hsz, ?_, ?_⟩
    · have h1 : (TARGET_BYTES + b - 1) / b = 1 := by
        apply Nat.div_eq_of_lt_le <;> simp only [TARGET_BYTES] <;> omega
      rw [h1, Nat.zero_div, Nat.div_eq_of_lt (by omega)]
    · simp [U64]

/-- Claim C10. For a positive buffer size `b` and a divisor `k` of 2 or 10, the
scaled iteration count is `ceil(536870912 / b) / k`; it is at least 1 exactly
when `(k - 1) * b < 536870912`, so it is 0 from `b = 59652324` on for `k = 10`
and from `b = 536870912` on for `k = 2`; with a count of 0 the loops do not run
and the throughput numerator is 0.  This is the count the adapters run with:
on a buffer of `b` bytes `jsonCppBenchmark` (k = 2), `cajunBenchmark` and
`jsonspiritBenchmark` (k = 10) report the numerator `b * count` when the
library accepts the buffer, and when its parser raises they meet the error
(which the cajun adapter turns into `(0, 0)`) exactly below the threshold of
their own divisor and return the zero-iteration sample from it on. -/
theorem scaled_iterations_reach_zero (b k : Nat) (hb : 0 < b) (hsz : b < 2 ^ 64)
    (hk : k = 2 ∨ k = 10) :
    ∃ n : Int, iterCount b = some n ∧
      scaleIter n (k : Int) = ⌈(536870912 : ℚ) / (b : ℚ)⌉ / (k : Int) ∧
      (1 ≤ scaleIter n (k : Int) ↔ (k - 1) * b < 536870912) ∧
      (k = 10 → (scaleIter n (k : Int) = 0 ↔ 59652324 ≤ b)) ∧
      (k = 2 → (scaleIter n (k : Int) = 0 ↔ 536870912 ≤ b)) ∧
      (scaleIter n (k : Int) = 0 →
        loopTrips (scaleIter n (k : Int)) = 0 ∧
        bytesProcessed b (scaleIter n (k : Int)) = 0 ∧
        ∀ (M : Type) (lib : Backend M) (name : String) (s : Bytes),
          (k = 10 →
            cajunBenchmark lib name s n =
              .ok (speed 0 lib.parseSeconds, speed 0 lib.writeSeconds) ∧
            jsonspiritBenchmark lib name s n =
              .ok (speed 0 lib.parseSeconds, speed 0 lib.writeSeconds)) ∧
          (k = 2 →
            jsonCppBenchmark lib name s n =
              .ok (speed 0 lib.parseSeconds, speed 0 lib.writeSeconds))) ∧
      ∀ (M : Type) (lib : Backend M) (name : String) (s : Bytes), s.length = b →
        (∀ (m : M) (out : Bytes), lib.parse s = .ok m → lib.write m = .ok out →
          (k = 10 →
            cajunBenchmark lib name s n =
              .ok (speed (b * (scaleIter n 10).toNat) lib.parseSeconds,
                speed (bytesProcessed out.length (scaleIter n 10)) lib.writeSeconds) ∧
            jsonspiritBenchmark lib name s n =
              .ok (speed (b * (scaleIter n 10).toNat) lib.parseSeconds,
                speed (bytesProcessed out.length (scaleIter n 10)) lib.writeSeconds)) ∧
          (k = 2 →
            jsonCppBenchmark lib name s n =
              .ok (speed (b * (scaleIter n 2).toNat) lib.parseSeconds,
                speed (bytesProcessed out.length (scaleIter n 2)) lib.writeSeconds))) ∧
        (∀ e : StdException, lib.parse s = .error e →
          (k = 10 →
            cajunBenchmark lib name s n =
              (if 9 * b < 536870912 then .ok (0, 0)
                else .ok (speed 0 lib.parseSeconds, speed 0 lib.writeSeconds)) ∧
            jsonspiritBenchmark lib name s n =
              (if 9 * b < 536870912 then .error e
                else .ok (speed 0 lib.parseSeconds, speed 0 lib.writeSeconds))) ∧
          (k = 2 →
            jsonCppBenchmark lib name s n =
              (if b < 536870912 then .error e
                else .ok (speed 0 lib.parseSeconds, speed 0 lib.writeSeconds)))) := by
  have hk2 : 2 ≤ k := by omega
  obtain ⟨q, hq, hdiv, hprod⟩ := scaled_product b k hb hsz hk2
  have hceil := ceilDiv_eq_ceil TARGET_BYTES b hb
  have hT : ((TARGET_BYTES : Nat) : ℚ) = 536870912 := by norm_num [TARGET_BYTES]
  rw [hT] at hceil
  have hiff : 1 ≤ (TARGET_BYTES + b - 1) / b / k ↔ (k - 1) * b < TARGET_BYTES := by
    rw [Nat.one_le_div_iff (by omega)]
    exact ceilDiv_ge_iff TARGET_BYTES b k hb (by omega)
  have hsc : scaleIter (q : Int) (k : Int) = (((TARGET_BYTES + b - 1) / b / k : Nat) : Int) := by
    rw [scaleIter_natCast, hdiv]
  have hscq : scaleIter (q : Int) (k : Int) = ((q / k : Nat) : Int) := scaleIter_natCast q k
  have hiffq : 1 ≤ q / k ↔ (k - 1) * b < 536870912 := by
    rw [hdiv, hiff]; simp [TARGET_BYTES]
  have hnum : bytesProcessed b ((q / k : Nat) : Int) = b * (q / k) := by
    have hlt : q / k < U64 := by
      have : 1 * (q / k) ≤ b * (q / k) := Nat.mul_le_mul_right _ hb
      omega
    unfold bytesProcessed
    rw [toU64_natCast _ hlt, Nat.mod_eq_of_lt hprod]
  refine ⟨q, hq, ?_, ?_, ?_, ?_, ?_, ?_⟩
  · rw [hsc, hceil]; norm_cast
  · rw [hsc]
    have : (1 : Int) ≤ (((TARGET_BYTES + b - 1) / b / k : Nat) : Int) ↔
        1 ≤ (TARGET_BYTES + b - 1) / b / k := by norm_cast
    rw [this, hiff]; simp [TARGET_BYTES]
  · intro h10
    rw [hsc]
    subst h10
    have : ((((TARGET_BYTES + b - 1) / b / 10 : Nat) : Int) = 0) ↔
        ¬ 1 ≤ (TARGET_BYTES + b - 1) / b / 10 := by omega
    rw [this, hiff]; simp only [TARGET_BYTES]; omega
  · intro h2
    rw [hsc]
    subst h2
    have : ((((TARGET_BYTES + b - 1) / b / 2 : Nat) : Int) = 0) ↔
        ¬ 1 ≤ (TARGET_BYTES + b - 1) / b / 2 := by omega
    rw [this, hiff]; simp only [TARGET_BYTES]; omega
  · intro h0
    refine ⟨?_, ?_, ?_⟩
    · rw [h0]; rfl
    · rw [h0]; simp [bytesProcessed, toU64]
    · intro M lib name s
      constructor
      · intro h10
        subst h10
        have h0' : scaleIter (q : Int) 10 = 0 := by simpa using h0
        simp only [cajunBenchmark, jsonspiritBenchmark, h0', timedParseAndWrite_zero,
          catchStdException, and_self]
      · intro h2
        subst h2
        have h0' : scaleIter (q : Int) 2 = 0 := by simpa using h0
        simp only [jsonCppBenchmark, h0', timedParseAndWrite_zero]
  · intro M lib name s hlen
    constructor
    · intro m out hp hw
      have hacc := timedParseAndWrite_accepts lib s (q / k) m out hp hw
      rw [hlen, hnum] at hacc
      constructor
      · intro h10
        subst h10
        have e10 : scaleIter (q : Int) 10 = ((q / 10 : Nat) : Int) := by simpa using hscq
        simp only [cajunBenchmark, jsonspiritBenchmark, e10, hacc, catchStdException,
          Int.toNat_ofNat, and_self]
      · intro h2
        subst h2
        have e2 : scaleIter (q : Int) 2 = ((q / 2 : Nat) : Int) := by simpa using hscq
        simp only [jsonCppBenchmark, e2, hacc, Int.toNat_ofNat]
    · intro e hp
      have hr := timedParseAndWrite_raises lib s (q / k) e hp
      constructor
      · intro h10
        subst h10
        have e10 : scaleIter (q : Int) 10 = ((q / 10 : Nat) : Int) := by simpa using hscq
        have hc : (1 ≤ q / 10) ↔ 9 * b < 536870912 := by simpa using hiffq
        simp only [cajunBenchmark, jsonspiritBenchmark, e10, hr, hc]
        constructor
        · split_ifs <;> rfl
        · trivial
      · intro h2
        subst h2
        have e2 : scaleIter (q : Int) 2 = ((q / 2 : Nat) : Int) := by simpa using hscq
        have hc : (1 ≤ q / 2) ↔ b < 536870912 := by simpa using hiffq
        simp only [jsonCppBenchmark, e2, hr, hc]

theorem scaled_iterations_reach_zero_witness :
    (∃ n : Int, iterCount 59652324 = some n ∧ scaleIter n 10 = 0 ∧
      ¬ (10 - 1) * 59652324 < 536870912) ∧
    (∃ n : Int, iterCount 1 = some n ∧ 1 ≤ scaleIter n 2 ∧
      jsonCppBenchmark rejectingBackend "canada.json" [123] n = .error ⟨"parse error"⟩ ∧
      jsonCppBenchmark acceptingBackend "canada.json" [123] n =
        .ok (speed (1 * (scaleIter n 2).toNat) acceptingBackend.parseSeconds,
          speed (bytesProcessed ([123, 125] : Bytes).length (scaleIter n 2))
            acceptingBackend.writeSeconds)) := by
  constructor
  · obtain ⟨n, hn, _, _, h10, _⟩ :=
      scaled_iterations_reach_zero 59652324 10 (by decide) (by decide) (Or.inr rfl)
    exact ⟨n, hn, by simpa using (h10 rfl).2 (by decide), by decide⟩
  · obtain ⟨n, hn, _, hiff, _, _, _, hrun⟩ :=
      scaled_iterations_reach_zero 1 2 (by decide) (by decide) (Or.inl rfl)
    have h1 : 1 ≤ scaleIter n 2 := by simpa using hiff.2 (by decide)
    have hrej := ((hrun Unit rejectingBackend "canada.json" [123] rfl).2 ⟨"parse error"⟩ rfl).2 rfl
    have hacc := ((hrun Unit acceptingBackend "canada.json" [123] rfl).1 () [123, 125] rfl rfl).2 rfl
    rw [if_pos (by decide)] at hrej
    exact ⟨n, hn, h1, hrej, hacc⟩

/-! ### The adapters -/

theorem timedParseAndWrite_parse_error {M : Type} (lib : Backend M) (s : Bytes) (iter : Int)
    (e : StdException) (hi : 0 < iter) (hp : lib.parse s = .error e) :
    timedParseAndWrite lib s iter = .error e := by
  have hn : 0 < loopTrips iter := by unfold loopTrips; omega
  simp [timedParseAndWrite, hp, repeatLast_error e _ _ hn]

/-- Claim C2 (the code departs from it). When the parser of the wrapped library
raises and at least one iteration runs, `nlohmannBenchmark`, which has no
handler, lets the exception leave the adapter instead of returning `(0, 0)`,
and the run ends there without printing the row; `uxsDbJsonBenchmark` on the
same library returns `(0, 0)`. -/
theorem nlohmann_error_propagates {M : Type} (lib : Backend M) (name : String) (s : Bytes)
    (iter_count : Int) (e : StdException) (hi : 0 < iter_count)
    (hp : lib.parse s = .error e) :
    nlohmannBenchmark lib name s iter_count = .error e ∧
      uxsDbJsonBenchmark lib name s iter_count = .ok (0, 0) ∧
      ∀ (fixed2 : ℚ → String) (ref : Sample) (r : Run), r.status = .normal →
        reportRow fixed2 ref r ("nlohmann", nlohmannBenchmark lib name s iter_count) =
          ⟨r.out, r.adapters ++ ["nlohmann"], .terminated e⟩ := by
  have h := timedParseAndWrite_parse_error lib s iter_count e hi hp
  have hn : nlohmannBenchmark lib name s iter_count = .error e := by
    simpa [nlohmannBenchmark] using h
  refine ⟨hn, ?_, ?_⟩
  · simp [uxsDbJsonBenchmark, h, catchStdException]
  · intro fixed2 ref r hr
    simp [reportRow, hr, hn]

theorem nlohmann_error_propagates_witness :
    nlohmannBenchmark rejectingBackend "canada.json" [123] 536870912 =
        .error ⟨"parse error"⟩ ∧
      uxsDbJsonBenchmark rejectingBackend "canada.json" [123] 536870912 = .ok (0, 0) :=
  ⟨(nlohmann_error_propagates rejectingBackend "canada.json" [123] 536870912 ⟨"parse error"⟩
      (by decide) rfl).1,
    (nlohmann_error_propagates rejectingBackend "canada.json" [123] 536870912 ⟨"parse error"⟩
      (by decide) rfl).2.1⟩

theorem catchStdException_second (body : Except StdException Sample)
    (h : ∀ s, body = .ok s → s.2 = 0) :
    ∃ p, catchStdException body = .ok (p, 0) := by
  cases body with
  | error e => exact ⟨0, rfl⟩
  | ok s =>
    refine ⟨s.1, ?_⟩
    have := h s rfl
    simp only [catchStdException]
    congr 1
    exact Prod.ext rfl this

theorem timedScan_second (lib : Scanner) (s : Bytes) (iter : Int) (x : Sample)
    (h : timedScan lib s iter = .ok x) : x.2 = 0 := by
  unfold timedScan at h
  split at h
  · cases h
  · cases h; rfl

theorem column_zero (fixed2 : ℚ → String) (r : ℚ) : column fixed2 0 r = some naColumn := by
  simp [column]

theorem naColumn_text : naColumn = "                      n/a              " := by decide

/-- Claim C5. The three scan-only adapters always return a sample whose write
component is 0, whatever the buffer, the iteration count, the measured
duration and the outcome of the scan; and `printBenchmark` renders the write
column of a sample `(p, 0)` as the blank-padded `n/a`, for every reference. -/
theorem scan_only_write_unavailable (json xml : Scanner) (seconds : ℚ) (name : String)
    (buff : Bytes) (iter_count : Int) :
    (∃ p, uxsDbJsonBenchmark_SAX json name buff iter_count = .ok (p, 0)) ∧
      (∃ p, jsonparserBenchmark seconds name buff iter_count = .ok (p, 0)) ∧
      (∃ p, uxsDbXmlBenchmark_SAX xml name buff iter_count = .ok (p, 0)) ∧
      ∀ (fixed2 : ℚ → String) (label : String) (p : ℚ) (ref : Sample),
        column fixed2 0 ref.2 = some "                      n/a              " ∧
        printBenchmark fixed2 label (p, 0) ref =
          (column fixed2 p ref.1).map
            (fun c1 => setw 25 label ++ c1 ++ "                      n/a              " ++ "\n") := by
  refine ⟨catchStdException_second _ (timedScan_second json buff iter_count), ⟨_, rfl⟩,
    catchStdException_second _ (timedScan_second xml buff iter_count), ?_⟩
  intro fixed2 label p ref
  rw [← naColumn_text]
  refine ⟨column_zero fixed2 ref.2, ?_⟩
  simp only [printBenchmark, column_zero]
  cases column fixed2 p ref.1 <;> rfl

/-! ### The percentage column -/

theorem roundHalfEven_err (y : ℚ) : |((roundHalfEven y : Int) : ℚ) - y| ≤ 1 / 2 := by
  have h1 := Int.floor_le y
  have h2 := Int.lt_floor_add_one y
  unfold roundHalfEven
  simp only
  rw [abs_le]
  split_ifs with a b c
  · constructor <;> linarith
  · push_cast; constructor <;> linarith
  · push_neg at a b
    constructor <;> linarith
  · push_neg at a b
    push_cast; constructor <;> linarith

theorem roundHalfEven_eq (y : ℚ) (m : Int) (h1 : (m : ℚ) - 1 / 2 < y) (h2 : y < m + 1 / 2) :
    roundHalfEven y = m := by
  have hf1 := Int.floor_le y
  have hf2 := Int.lt_floor_add_one y
  have hfl : ⌊y⌋ = m ∨ ⌊y⌋ = m - 1 := by
    have a1 : ((⌊y⌋ : Int) : ℚ) < m + 1 / 2 := by linarith
    have a2 : (m : ℚ) - 3 / 2 < ⌊y⌋ := by linarith
    have b1 : ⌊y⌋ < m + 1 := by
      have : ((⌊y⌋ : Int) : ℚ) < ((m + 1 : Int) : ℚ) := by push_cast; linarith
      exact_mod_cast this
    have b2 : m - 2 < ⌊y⌋ := by
      have : ((m - 2 : Int) : ℚ) < ((⌊y⌋ : Int) : ℚ) := by push_cast; linarith
      exact_mod_cast this
    omega
  unfold roundHalfEven
  simp only
  rcases hfl with h | h
  · rw [h]
    have : y - m < 1 / 2 := by linarith
    rw [if_pos this]
  · rw [h]
    have e : ((m - 1 : Int) : ℚ) = m - 1 := by push_cast; ring
    have n1 : ¬ (y - ((m - 1 : Int) : ℚ) < 1 / 2) := by rw [e]; linarith
    have n2 : 1 / 2 < y - ((m - 1 : Int) : ℚ) := by rw [e]; linarith
    rw [if_neg n1, if_pos n2]
    ring

theorem roundToDouble_err (x : ℚ) : |roundToDouble x - x| ≤ |x| / 2 ^ 53 := by
  unfold roundToDouble
  split_ifs with h0
  · subst h0; simp
  · simp only
    have hx : 0 < |x| := abs_pos.mpr h0
    set e := Int.log 2 |x| with he
    have hle : ((2 : ℕ) : ℚ) ^ e ≤ |x| := Int.zpow_log_le_self (by norm_num) hx
    have hu : (0 : ℚ) < 2 ^ (e - 52) := by positivity
    have herr := roundHalfEven_err (x / 2 ^ (e - 52))
    have key : ((roundHalfEven (x / 2 ^ (e - 52)) : Int) : ℚ) * 2 ^ (e - 52) - x =
        (((roundHalfEven (x / 2 ^ (e - 52)) : Int) : ℚ) - x / 2 ^ (e - 52)) * 2 ^ (e - 52) := by
      field_simp
    rw [key, abs_mul, abs_of_pos hu]
    have h2 : (2 : ℚ) ^ (e - 52) = 2 ^ e / 2 ^ 52 := by
      rw [zpow_sub₀ (by norm_num)]; norm_num
    calc |((roundHalfEven (x / 2 ^ (e - 52)) : Int) : ℚ) - x / 2 ^ (e - 52)| * 2 ^ (e - 52)
        ≤ 1 / 2 * 2 ^ (e - 52) := by
          exact mul_le_mul_of_nonneg_right herr hu.le
      _ = 2 ^ e / 2 ^ 53 := by rw [h2]; ring
      _ ≤ |x| / 2 ^ 53 := by
          apply div_le_div_of_nonneg_right _ (by positivity)
          simpa using hle

theorem roundToDouble_eval (x : ℚ) (e m : Int) (h1 : (2 : ℚ) ^ e ≤ |x|)
    (h2 : |x| < (2 : ℚ) ^ (e + 1)) (hm1 : (m : ℚ) - 1 / 2 < x / 2 ^ (e - 52))
    (hm2 : x / 2 ^ (e - 52) < m + 1 / 2) : roundToDouble x = m * 2 ^ (e - 52) := by
  have hpos : 0 < |x| := lt_of_lt_of_le (by positivity) h1
  have hx : x ≠ 0 := abs_pos.mp hpos
  have hlog : Int.log 2 |x| = e := by
    have a1 : e ≤ Int.log 2 |x| :=
      (Int.zpow_le_iff_le_log (by norm_num) hpos).mp (by simpa using h1)
    have a2 : Int.log 2 |x| < e + 1 :=
      (Int.lt_zpow_iff_log_lt (by norm_num) hpos).mp (by simpa using h2)
    omega
  unfold roundToDouble
  rw [if_neg hx]
  simp only [hlog]
  rw [roundHalfEven_eq _ m hm1 hm2]

theorem roundToDouble_eval_pos (x : ℚ) (e m : Int) (h1 : (2 : ℚ) ^ e ≤ x)
    (h2 : x < (2 : ℚ) ^ (e + 1)) (hm1 : (m : ℚ) - 1 / 2 < x / 2 ^ (e - 52))
    (hm2 : x / 2 ^ (e - 52) < m + 1 / 2) : roundToDouble x = m * 2 ^ (e - 52) := by
  have hx : 0 < x := lt_of_lt_of_le (by positivity) h1
  exact roundToDouble_eval x e m (by rwa [abs_of_pos hx]) (by rwa [abs_of_pos hx]) hm1 hm2

theorem roundToDouble_eval_neg (x : ℚ) (e m : Int) (h1 : (2 : ℚ) ^ e ≤ -x)
    (h2 : -x < (2 : ℚ) ^ (e + 1)) (hm1 : (m : ℚ) - 1 / 2 < x / 2 ^ (e - 52))
    (hm2 : x / 2 ^ (e - 52) < m + 1 / 2) : roundToDouble x = m * 2 ^ (e - 52) := by
  have hx : x < 0 := by
    have : 0 < -x := lt_of_lt_of_le (by positivity) h1
    linarith
  exact roundToDouble_eval x e m (by rwa [abs_of_neg hx]) (by rwa [abs_of_neg hx]) hm1 hm2

theorem percent_eval (v r a q s : ℚ) (hr : r ≠ 0) (ha : roundToDouble (100 * v) = a)
    (hq : roundToDouble (a / r) = q) (hs : roundToDouble (1 / 2 + q) = s) :
    percent v r = if -(2 ^ 31) ≤ ⌊s⌋ ∧ ⌊s⌋ < 2 ^ 31 then some ⌊s⌋ else none := by
  simp only [percent, if_neg hr, ha, hq, hs]

theorem percent_sum_err (v r : ℚ) (hr : r ≠ 0) (hq : |100 * v / r| ≤ 2 ^ 31) :
    |roundToDouble (1 / 2 + roundToDouble (roundToDouble (100 * v) / r)) -
      (100 * v / r + 1 / 2)| < 1 / 2 ^ 20 := by
  set a := roundToDouble (100 * v) with ha
  set q1 := roundToDouble (a / r) with hq1
  set s := roundToDouble (1 / 2 + q1) with hs
  have hrpos : 0 < |r| := abs_pos.mpr hr
  have e1 : |a - 100 * v| ≤ |100 * v| / 2 ^ 53 := roundToDouble_err _
  have e1r : |a / r - 100 * v / r| ≤ |100 * v / r| / 2 ^ 53 := by
    have : a / r - 100 * v / r = (a - 100 * v) / r := by ring
    rw [this, abs_div, abs_div, div_right_comm]
    exact div_le_div_of_nonneg_right e1 hrpos.le
  have b1 : |a / r| ≤ |a / r - 100 * v / r| + |100 * v / r| := by
    have := abs_add (a / r - 100 * v / r) (100 * v / r)
    simpa using this
  have e2 : |q1 - a / r| ≤ |a / r| / 2 ^ 53 := roundToDouble_err _
  have b2 : |q1| ≤ |q1 - a / r| + |a / r| := by
    have := abs_add (q1 - a / r) (a / r)
    simpa using this
  have e3 : |s - (1 / 2 + q1)| ≤ |1 / 2 + q1| / 2 ^ 53 := roundToDouble_err _
  have b3 : |1 / 2 + q1| ≤ 1 / 2 + |q1| := by
    have := abs_add (1 / 2 : ℚ) q1
    rwa [abs_of_pos (by norm_num : (0 : ℚ) < 1 / 2)] at this
  have t1 : |s - (100 * v / r + 1 / 2)| ≤ |s - (1 / 2 + q1)| + |1 / 2 + q1 - (100 * v / r + 1 / 2)| :=
    abs_sub_le _ _ _
  have t2 : |1 / 2 + q1 - (100 * v / r + 1 / 2)| ≤ |q1 - a / r| + |a / r - 100 * v / r| := by
    have : 1 / 2 + q1 - (100 * v / r + 1 / 2) = q1 - 100 * v / r := by ring
    rw [this]
    exact abs_sub_le _ _ _
  have hQ0 : 0 ≤ |100 * v / r| := abs_nonneg _
  generalize |100 * v / r| = Q at *
  generalize |a / r - 100 * v / r| = E1 at *
  generalize |a / r| = A at *
  generalize |q1 - a / r| = E2 at *
  generalize |q1| = Q1 at *
  generalize |1 / 2 + q1| = S at *
  generalize |s - (1 / 2 + q1)| = E3 at *
  generalize |1 / 2 + q1 - (100 * v / r + 1 / 2)| = T at *
  norm_num at *
  linarith

theorem percent_near (v r : ℚ) (hr : r ≠ 0) (hlo : -(2 ^ 31) + 1 ≤ 100 * v / r)
    (hhi : 100 * v / r ≤ 2 ^ 31 - 2) :
    ∃ s : ℚ, |s - (100 * v / r + 1 / 2)| < 1 / 2 ^ 20 ∧ percent v r = some ⌊s⌋ := by
  have hq : |100 * v / r| ≤ 2 ^ 31 := by
    rw [abs_le]; constructor <;> linarith
  have herr := percent_sum_err v r hr hq
  refine ⟨_, herr, ?_⟩
  rw [abs_lt] at herr
  obtain ⟨l, u⟩ := herr
  set s := roundToDouble (1 / 2 + roundToDouble (roundToDouble (100 * v) / r)) with hs
  have f1 := Int.floor_le s
  have f2 := Int.lt_floor_add_one s
  have hfit : -(2 ^ 31) ≤ ⌊s⌋ ∧ ⌊s⌋ < 2 ^ 31 := by
    constructor
    · have : ((-(2 ^ 31) - 1 : Int) : ℚ) < ((⌊s⌋ : Int) : ℚ) := by
        push_cast; norm_num at hlo hhi l u ⊢; linarith
      have := Int.cast_lt.mp this
      omega
    · have : ((⌊s⌋ : Int) : ℚ) < ((2 ^ 31 : Int) : ℚ) := by
        push_cast; norm_num at hlo hhi l u ⊢; linarith
      exact Int.cast_lt.mp this
  simp only [percent, if_neg hr, ← hs, if_pos hfit]

theorem percent_self (v : ℚ) (hv : v ≠ 0) : percent v v = some 100 := by
  have hq : 100 * v / v = 100 := by field_simp
  obtain ⟨s, herr, hp⟩ := percent_near v v hv (by rw [hq]; norm_num) (by rw [hq]; norm_num)
  rw [hq, abs_lt] at herr
  obtain ⟨l, u⟩ := herr
  have : ⌊s⌋ = 100 := by
    rw [Int.floor_eq_iff]
    norm_num at l u ⊢
    constructor <;> linarith
  rw [hp, this]

theorem percent_neg_half : percent (-1) 200 = some 0 := by
  have ha : roundToDouble (100 * (-1)) = -100 := by
    rw [roundToDouble_eval_neg _ 6 (-7036874417766400) (by norm_num) (by norm_num) (by norm_num)
      (by norm_num)]
    norm_num
  have hq : roundToDouble (-100 / 200) = -1 / 2 := by
    rw [roundToDouble_eval_neg _ (-1) (-4503599627370496) (by norm_num) (by norm_num) (by norm_num)
      (by norm_num)]
    norm_num
  have hs : roundToDouble (1 / 2 + -1 / 2) = 0 := by
    norm_num [roundToDouble]
  rw [percent_eval (-1) 200 _ _ _ (by norm_num) ha hq hs]
  norm_num

theorem roundHalfAwayFromZero_neg_half : roundHalfAwayFromZero (100 * (-1) / 200) = -1 := by
  norm_num [roundHalfAwayFromZero]

theorem percent_too_large : percent 1000000000 1 = none := by
  have ha : roundToDouble (100 * 1000000000) = 100000000000 := by
    rw [roundToDouble_eval_pos _ 36 6553600000000000 (by norm_num) (by norm_num) (by norm_num)
      (by norm_num)]
    norm_num
  have hq : roundToDouble (100000000000 / 1) = 100000000000 := by
    rw [roundToDouble_eval_pos _ 36 6553600000000000 (by norm_num) (by norm_num) (by norm_num)
      (by norm_num)]
    norm_num
  have hs : roundToDouble (1 / 2 + 100000000000) = 200000000001 / 2 := by
    rw [roundToDouble_eval_pos _ 36 6553600000032768 (by norm_num) (by norm_num) (by norm_num)
      (by norm_num)]
    norm_num
  have hf : ⌊(200000000001 / 2 : ℚ)⌋ = 100000000000 := by
    rw [Int.floor_eq_iff]; norm_num
  rw [percent_eval 1000000000 1 _ _ _ (by norm_num) ha hq hs, hf]
  norm_num

theorem percent_near_tie :
    percent (1999870222164351 / 2097152) (102873982621623 / 131072) = some 122 := by
  have ha : roundToDouble (100 * (1999870222164351 / 2097152)) = 6249594444263597 / 65536 := by
    rw [roundToDouble_eval_pos _ 36 6249594444263597 (by norm_num) (by norm_num) (by norm_num)
      (by norm_num)]
    norm_num
  have hq : roundToDouble (6249594444263597 / 65536 / (102873982621623 / 131072)) = 243 / 2 := by
    rw [roundToDouble_eval_pos _ 6 8549802417586176 (by norm_num) (by norm_num) (by norm_num)
      (by norm_num)]
    norm_num
  have hs : roundToDouble (1 / 2 + 243 / 2) = 122 := by
    rw [roundToDouble_eval_pos _ 6 8584986789675008 (by norm_num) (by norm_num) (by norm_num)
      (by norm_num)]
    norm_num
  rw [percent_eval _ _ _ _ _ (by norm_num) ha hq hs]
  norm_num

theorem exact_near_tie :
    roundHalfAwayFromZero (100 * (1999870222164351 / 2097152) / (102873982621623 / 131072)) =
      121 := by
  have h0 : (0 : ℚ) ≤ 100 * (1999870222164351 / 2097152) / (102873982621623 / 131072) := by
    norm_num
  rw [roundHalfAwayFromZero, if_pos h0, Int.floor_eq_iff]
  norm_num

/-- Claim C6 fails as stated.  For the non-zero values `v = -1` and `r = 200`
the code prints `floor(0.5 - 0.5) = 0`, while rounding `-0.5` half away from
zero gives `-1`.  For the positive doubles `v = 953612433.5119014`
(`1999870222164351 / 2 ^ 21`) and `r = 784866200.421318`
(`102873982621623 / 2 ^ 17`) the exact quotient `100 * v / r` is just below
`121.5` and rounds to 121, but the quotient computed in `double` is `121.5`
and the code prints 122.  For `v = 1000000000`, `r = 1` the rounded quotient
does not fit in an `int`, so no percentage is defined. -/
theorem percent_not_half_away :
    (¬ ∀ v r : ℚ, v ≠ 0 → r ≠ 0 →
      percent v r = some (roundHalfAwayFromZero (100 * v / r))) ∧
      percent (-1) 200 = some 0 ∧
      roundHalfAwayFromZero (100 * (-1) / 200) = -1 ∧
      percent (1999870222164351 / 2097152) (102873982621623 / 131072) = some 122 ∧
      roundHalfAwayFromZero
        (100 * (1999870222164351 / 2097152) / (102873982621623 / 131072)) = 121 ∧
      percent 1000000000 1 = none := by
  refine ⟨?_, percent_neg_half, roundHalfAwayFromZero_neg_half, percent_near_tie,
    exact_near_tie, percent_too_large⟩
  intro h
  have h1 := h (-1) 200 (by norm_num) (by norm_num)
  rw [percent_neg_half, roundHalfAwayFromZero_neg_half] at h1
  exact absurd h1 (by decide)

/-- Claim C6, amended. For non-zero `v` and `r` with `100 * v` below the
largest `double` (the range in which the product does not overflow) and
`-2 ^ 31 + 1 ≤ 100 * v / r ≤ 2 ^ 31 - 2` the code prints a percentage `p`, the
floor of `.5 + 100 * v / r` evaluated in `double`; `p` differs from the exact
`100 * v / r` by less than `1 / 2 + 2 ^ -20`, and whenever `100 * v / r + 1 / 2`
is at least `2 ^ -20` away from the integers around it, `p` is
`floor(100 * v / r + 1 / 2)`: the exact quotient rounded to nearest, halves up,
which is rounding half away from zero when `v / r` is positive.  When the
value is zero the column is the blank-padded `n/a` and no percentage is
computed. -/
theorem percent_rounds_half_up (fixed2 : ℚ → String) (v r : ℚ) (hv : v ≠ 0) (hr : r ≠ 0)
    (_hfinite : |100 * v| < 2 ^ 1023)
    (hlo : -(2 ^ 31) + 1 ≤ 100 * v / r) (hhi : 100 * v / r ≤ 2 ^ 31 - 2) :
    ∃ p : Int, percent v r = some p ∧
      |(p : ℚ) - 100 * v / r| < 1 / 2 + 1 / 2 ^ 20 ∧
      (∀ z : Int, (z : ℚ) + 1 / 2 ^ 20 ≤ 100 * v / r + 1 / 2 →
        100 * v / r + 1 / 2 ≤ (z : ℚ) + 1 - 1 / 2 ^ 20 →
        p = z ∧ p = ⌊100 * v / r + 1 / 2⌋ ∧
          (0 < v / r → p = roundHalfAwayFromZero (100 * v / r))) ∧
      column fixed2 v r =
        some (setw 25 (fixed2 (0.000001 * v)) ++ " MiB/s (" ++ setw 4 (toString p) ++ "%)") ∧
      ∀ r0 : ℚ, column fixed2 0 r0 = some "                      n/a              " := by
  clear _hfinite
  obtain ⟨s, herr, hp⟩ := percent_near v r hr hlo hhi
  rw [abs_lt] at herr
  obtain ⟨l, u⟩ := herr
  have f1 := Int.floor_le s
  have f2 := Int.lt_floor_add_one s
  refine ⟨⌊s⌋, hp, ?_, ?_, ?_, ?_⟩
  · rw [abs_lt]
    constructor <;> linarith
  · intro z hz1 hz2
    have hpz : ⌊s⌋ = z := by
      rw [Int.floor_eq_iff]
      constructor <;> linarith
    have hfz : ⌊100 * v / r + 1 / 2⌋ = z := by
      rw [Int.floor_eq_iff]
      have : (0 : ℚ) < 1 / 2 ^ 20 := by positivity
      constructor <;> linarith
    refine ⟨hpz, by rw [hpz, hfz], ?_⟩
    intro hpos
    have h0 : 0 ≤ 100 * v / r := by
      have : 100 * v / r = 100 * (v / r) := by ring
      rw [this]; positivity
    rw [hpz, roundHalfAwayFromZero, if_pos h0, hfz]
  · simp [column, hv, hp]
  · intro r0
    rw [← naColumn_text]
    exact column_zero fixed2 r0

theorem percent_rounds_half_up_witness :
    percent 1 3 = some 33 ∧
      column twoDecimals 1 3 =
        some (setw 25 (twoDecimals (0.000001 * 1)) ++ " MiB/s (" ++
          setw 4 (toString (33 : Int)) ++ "%)") := by
  obtain ⟨p, hp, _, htie, hcol, _⟩ :=
    percent_rounds_half_up twoDecimals 1 3 (by norm_num) (by norm_num)
      (by
        rw [abs_of_pos (by norm_num)]
        exact lt_of_lt_of_le (by norm_num : (100 * 1 : ℚ) < 2 ^ 7)
          (pow_le_pow_right₀ (by norm_num) (by norm_num)))
      (by norm_num) (by norm_num)
  have hz := (htie 33 (by norm_num) (by norm_num)).1
  subst hz
  exact ⟨hp, hcol⟩

theorem twoDecimals_one : twoDecimals (0.000001 * 1000000) = "1.00" := by
  have h : ⌊|(0.000001 * 1000000 : ℚ)| * 100⌋ = 100 := by norm_num
  simp only [twoDecimals, h]
  norm_num
  decide

theorem column_self (fixed2 : ℚ → String) (v : ℚ) (hv : v ≠ 0) :
    column fixed2 v v = some (setw 25 (fixed2 (0.000001 * v)) ++ " MiB/s ( 100%)") := by
  have h4 : setw 4 (toString (100 : Int)) = " 100" := by decide
  have h5 : " MiB/s (" ++ (" 100" ++ "%)") = " MiB/s ( 100%)" := by decide
  simp only [column, if_pos hv, percent_self v hv, h4, String.append_assoc, h5]

theorem timedScan_ok (lib : Scanner) (s : Bytes) (iter : Int) (h : lib.scan s = .ok ()) :
    timedScan lib s iter = .ok (speed (bytesProcessed s.length iter) lib.seconds, 0) := by
  simp only [timedScan, h, repeatLast_ok]

theorem uxsDbXmlBenchmark_SAX_accepting :
    uxsDbXmlBenchmark_SAX acceptingScanner "iceland-latest.osm" [60] 1000000 =
      .ok (1000000, 0) := by
  have h2 : bytesProcessed ([60] : Bytes).length 1000000 = 1000000 := by decide
  have h3 : speed 1000000 acceptingScanner.seconds = 1000000 := by
    simp only [speed, acceptingScanner]; norm_num
  rw [uxsDbXmlBenchmark_SAX, timedScan_ok acceptingScanner _ _ rfl, h2, h3]
  rfl

theorem printBenchmark_of_columns (fixed2 : ℚ → String) (name : String) (a b c d : ℚ)
    (c1 c2 : String) (h1 : column fixed2 a c = some c1) (h2 : column fixed2 b d = some c2) :
    printBenchmark fixed2 name (a, b) (c, d) = some (setw 25 name ++ c1 ++ c2 ++ "\n") := by
  simp only [printBenchmark, h1, h2]

theorem xml_reference_row :
    printBenchmark twoDecimals "uxs::db::xml-SAX" (1000000, 0) (1000000, 0) =
      some ("         uxs::db::xml-SAX                     1.00 MiB/s ( 100%)" ++
        "                      n/a              \n") := by
  rw [printBenchmark_of_columns twoDecimals _ _ _ _ _ _ _
    (column_self twoDecimals 1000000 (by norm_num)) (column_zero twoDecimals 0), twoDecimals_one]
  decide

/-- Claim C4 fails as stated: the reference of the XML suite comes from a
scan-only adapter, its write component is 0, and the write column of its own
row is `n/a`, not a percentage of 100. -/
theorem reference_row_not_always_100 :
    (¬ ∀ (fixed2 : ℚ → String) (xml : Scanner) (name : String) (buff : Bytes)
        (iter_count : Int) (ref : Sample),
        uxsDbXmlBenchmark_SAX xml name buff iter_count = .ok ref →
        ∃ t1 t2 : String, printBenchmark fixed2 "uxs::db::xml-SAX" ref ref =
          some (setw 25 "uxs::db::xml-SAX" ++ (setw 25 t1 ++ " MiB/s ( 100%)") ++
            (setw 25 t2 ++ " MiB/s ( 100%)") ++ "\n")) ∧
      uxsDbXmlBenchmark_SAX acceptingScanner "iceland-latest.osm" [60] 1000000 =
        .ok (1000000, 0) ∧
      printBenchmark twoDecimals "uxs::db::xml-SAX" (1000000, 0) (1000000, 0) =
        some ("         uxs::db::xml-SAX                     1.00 MiB/s ( 100%)" ++
          "                      n/a              \n") := by
  refine ⟨?_, uxsDbXmlBenchmark_SAX_accepting, xml_reference_row⟩
  intro h
  obtain ⟨t1, t2, ht⟩ := h twoDecimals acceptingScanner "iceland-latest.osm" [60] 1000000
    (1000000, 0) uxsDbXmlBenchmark_SAX_accepting
  rw [xml_reference_row] at ht
  have hd := congrArg (fun s : String => (s.data.reverse.take 2)) (Option.some.inj ht)
  simp [List.take] at hd

/-- Claim C4, amended. In the row of the reference sample printed against
itself, every column whose component is non-zero shows the percentage 100,
and a column whose component is zero is the blank-padded `n/a`. -/
theorem reference_row_100_where_available (fixed2 : ℚ → String) (name : String) (ref : Sample) :
    printBenchmark fixed2 name ref ref =
      some (setw 25 name ++
        (if ref.1 = 0 then "                      n/a              "
          else setw 25 (fixed2 (0.000001 * ref.1)) ++ " MiB/s ( 100%)") ++
        (if ref.2 = 0 then "                      n/a              "
          else setw 25 (fixed2 (0.000001 * ref.2)) ++ " MiB/s ( 100%)") ++ "\n") ∧
      (ref.1 ≠ 0 → percent ref.1 ref.1 = some 100) ∧
      (ref.2 ≠ 0 → percent ref.2 ref.2 = some 100) := by
  refine ⟨?_, percent_self _, percent_self _⟩
  rw [← naColumn_text]
  have hc : ∀ v : ℚ, column fixed2 v v =
      some (if v = 0 then naColumn else setw 25 (fixed2 (0.000001 * v)) ++ " MiB/s ( 100%)") := by
    intro v
    by_cases hv : v = 0
    · subst hv; simp [column_zero]
    · simp [column_self fixed2 v hv, hv]
  simp only [printBenchmark, hc]

/-! ### The fixed-width table -/

theorem setw_data (w : Nat) (s : String) :
    (setw w s).data = List.replicate (w - s.length) ' ' ++ s.data := by
  simp [setw]

theorem setw_length (w : Nat) (s : String) (h : s.length ≤ w) : (setw w s).length = w := by
  simp only [String.length, setw_data, List.length_append, List.length_replicate]
  simp only [String.length] at h
  omega

theorem naColumn_length : naColumn.length = 39 := by decide

theorem numericColumn_length (t p : String) (ht : t.length ≤ 25) (hp : p.length ≤ 4) :
    (setw 25 t ++ " MiB/s (" ++ setw 4 p ++ "%)").length = 39 := by
  simp only [String.length_append, setw_length 25 t ht, setw_length 4 p hp]
  rfl

theorem value_ends_at (pre t rest : String) (w : Nat) (ht : t.length ≤ w) :
    t.data <:+ (pre ++ setw w t ++ rest).data.take (pre.length + w) := by
  have hlen : (pre ++ setw w t).data.length = pre.length + w := by
    rw [← String.length, String.length_append, setw_length w t ht]
  rw [String.data_append, List.take_left' hlen, String.data_append, setw_data, ← List.append_assoc]
  exact List.suffix_append _ _

theorem column_shape (fixed2 : ℚ → String) (v r : ℚ)
    (h : v ≠ 0 → (fixed2 (0.000001 * v)).length ≤ 25 ∧
      ∃ p : Int, percent v r = some p ∧ (toString p).length ≤ 4) :
    ∃ c : String, column fixed2 v r = some c ∧ c.length = 39 ∧
      (v = 0 → c = naColumn) ∧
      (v ≠ 0 → ∃ (p : Int) (rest : String), percent v r = some p ∧
        c = setw 25 (fixed2 (0.000001 * v)) ++ rest ∧
        rest = " MiB/s (" ++ setw 4 (toString p) ++ "%)") := by
  by_cases hv : v = 0
  · subst hv
    exact ⟨naColumn, column_zero fixed2 r, naColumn_length, fun _ => rfl, fun h0 => absurd rfl h0⟩
  · obtain ⟨ht, p, hp, hpl⟩ := h hv
    refine ⟨setw 25 (fixed2 (0.000001 * v)) ++ " MiB/s (" ++ setw 4 (toString p) ++ "%)",
      ?_, numericColumn_length _ _ ht hpl, fun h0 => absurd h0 hv, fun _ => ⟨p, _, hp, ?_, rfl⟩⟩
    · simp [column, hv, hp]
    · simp only [String.append_assoc]

/-- Claim C8. For a label of at most 25 characters, and columns whose rendered
throughput has at most 25 characters and whose percentage has at most 4, the
row is the label right-aligned in 25 characters followed by two columns of 39
characters (103 before the newline), numeric or `n/a`; the throughput values
end at offsets 50 and 89, where `parsing` and `writing` end in the header. -/
theorem table_fixed_width (fixed2 : ℚ → String) (name : String) (time ref : Sample)
    (hname : name.length ≤ 25)
    (h1 : time.1 ≠ 0 → (fixed2 (0.000001 * time.1)).length ≤ 25 ∧
      ∃ p : Int, percent time.1 ref.1 = some p ∧ (toString p).length ≤ 4)
    (h2 : time.2 ≠ 0 → (fixed2 (0.000001 * time.2)).length ≤ 25 ∧
      ∃ p : Int, percent time.2 ref.2 = some p ∧ (toString p).length ≤ 4) :
    ∃ c1 c2 : String,
      printBenchmark fixed2 name time ref = some (setw 25 name ++ c1 ++ c2 ++ "\n") ∧
      (setw 25 name).length = 25 ∧
      name.data <:+ (setw 25 name ++ c1 ++ c2 ++ "\n").data.take 25 ∧
      c1.length = 39 ∧ c2.length = 39 ∧
      (setw 25 name ++ c1 ++ c2).length = 103 ∧
      (time.1 = 0 → c1 = setw 25 "n/a" ++ "              ") ∧
      (time.2 = 0 → c2 = setw 25 "n/a" ++ "              ") ∧
      (time.1 ≠ 0 → ∃ p : Int, percent time.1 ref.1 = some p ∧
        c1 = setw 25 (fixed2 (0.000001 * time.1)) ++ " MiB/s (" ++ setw 4 (toString p) ++ "%)" ∧
        (fixed2 (0.000001 * time.1)).data <:+
          (setw 25 name ++ c1 ++ c2 ++ "\n").data.take 50) ∧
      (time.2 ≠ 0 → ∃ p : Int, percent time.2 ref.2 = some p ∧
        c2 = setw 25 (fixed2 (0.000001 * time.2)) ++ " MiB/s (" ++ setw 4 (toString p) ++ "%)" ∧
        (fixed2 (0.000001 * time.2)).data <:+
          (setw 25 name ++ c1 ++ c2 ++ "\n").data.take 89) ∧
      headerLine.length = 90 ∧
      "parsing".data <:+ headerLine.data.take 50 ∧
      "writing".data <:+ headerLine.data.take 89 := by
  obtain ⟨c1, hc1, hl1, hz1, hn1⟩ := column_shape fixed2 time.1 ref.1 h1
  obtain ⟨c2, hc2, hl2, hz2, hn2⟩ := column_shape fixed2 time.2 ref.2 h2
  have hlab := setw_length 25 name hname
  refine ⟨c1, c2, ?_, hlab, ?_, hl1, hl2, ?_, hz1, hz2, ?_, ?_, ?_, ?_, ?_⟩
  · simp only [printBenchmark, hc1, hc2]
  · have := value_ends_at "" name (c1 ++ c2 ++ "\n") 25 hname
    simpa only [String.append_assoc, String.empty_append, String.length, List.length_nil,
      Nat.zero_add] using this
  · simp only [String.length_append, hlab, hl1, hl2]
  · intro hv
    obtain ⟨p, rest, hp, hc, hrest⟩ := hn1 hv
    refine ⟨p, hp, ?_, ?_⟩
    · rw [hc, hrest]; simp only [String.append_assoc]
    · have := value_ends_at (setw 25 name) (fixed2 (0.000001 * time.1)) (rest ++ c2 ++ "\n") 25
        (h1 hv).1
      rw [hlab] at this
      rw [hc]
      simpa only [String.append_assoc] using this
  · intro hv
    obtain ⟨p, rest, hp, hc, hrest⟩ := hn2 hv
    refine ⟨p, hp, ?_, ?_⟩
    · rw [hc, hrest]; simp only [String.append_assoc]
    · have := value_ends_at (setw 25 name ++ c1) (fixed2 (0.000001 * time.2)) (rest ++ "\n") 25
        (h2 hv).1
      rw [String.length_append, hlab, hl1] at this
      rw [hc]
      simpa only [String.append_assoc] using this
  · decide
  · decide
  · decide

theorem table_fixed_width_witness :
    ∃ c1 c2 : String,
      printBenchmark twoDecimals "rapidjson" (1000000, 1000000) (1000000, 1000000) =
        some (setw 25 "rapidjson" ++ c1 ++ c2 ++ "\n") ∧
      c1.length = 39 ∧ c2.length = 39 ∧ (setw 25 "rapidjson" ++ c1 ++ c2).length = 103 := by
  obtain ⟨c1, c2, h, _, _, h1, h2, h3, _⟩ :=
    table_fixed_width twoDecimals "rapidjson" (1000000, 1000000) (1000000, 1000000)
      (by decide)
      (fun _ => ⟨by rw [twoDecimals_one]; decide, 100, percent_self _ (by norm_num), by decide⟩)
      (fun _ => ⟨by rw [twoDecimals_one]; decide, 100, percent_self _ (by norm_num), by decide⟩)
  exact ⟨c1, c2, h, h1, h2, h3⟩

/-! ### Rows of a report -/

theorem reportRow_dead (fixed2 : ℚ → String) (ref : Sample) (r : Run)
    (row : String × Except StdException Sample) (h : r.status ≠ .normal) :
    reportRow fixed2 ref r row = r := by
  unfold reportRow
  split
  · rename_i h0; exact absurd h0 h
  · rfl

theorem foldl_reportRow_dead (fixed2 : ℚ → String) (ref : Sample)
    (rows : List (String × Except StdException Sample)) (r : Run) (h : r.status ≠ .normal) :
    rows.foldl (reportRow fixed2 ref) r = r := by
  induction rows with
  | nil => rfl
  | cons row rest ih => rw [List.foldl_cons, reportRow_dead fixed2 ref r row h, ih]

theorem foldl_reportRow_normal (fixed2 : ℚ → String) (ref : Sample)
    (rows : List (String × Except StdException Sample)) (r : Run)
    (h : (rows.foldl (reportRow fixed2 ref) r).status = .normal) : r.status = .normal := by
  by_contra hc
  rw [foldl_reportRow_dead fixed2 ref rows r hc] at h
  exact hc h

theorem reportRow_normal (fixed2 : ℚ → String) (ref : Sample) (r : Run)
    (label : String) (s : Sample) (hr : r.status = .normal)
    (h : (reportRow fixed2 ref r (label, .ok s)).status = .normal) :
    ∃ text, printBenchmark fixed2 label s ref = some text ∧
      reportRow fixed2 ref r (label, .ok s) =
        ⟨r.out ++ [text], r.adapters ++ [label], .normal⟩ := by
  unfold reportRow at h ⊢
  rw [hr] at h ⊢
  simp only at h ⊢
  cases hp : printBenchmark fixed2 label s ref with
  | none => rw [hp] at h; simp at h
  | some text => exact ⟨text, rfl, by simp [hr]⟩

theorem printBenchmark_failed (fixed2 : ℚ → String) (label : String) (ref : Sample) :
    printBenchmark fixed2 label (0, 0) ref =
      some (setw 25 label ++ naColumn ++ naColumn ++ "\n") := by
  simp only [printBenchmark, column_zero]

theorem reportRow_out_indep (fixed2 : ℚ → String) (ref : Sample) (r r0 : Run)
    (row : String × Except StdException Sample)
    (ha : r0.adapters = r.adapters) (hs : r0.status = r.status) :
    ∃ extra, (reportRow fixed2 ref r row).out = r.out ++ extra ∧
      (reportRow fixed2 ref r0 row).out = r0.out ++ extra ∧
      (reportRow fixed2 ref r0 row).adapters = (reportRow fixed2 ref r row).adapters ∧
      (reportRow fixed2 ref r0 row).status = (reportRow fixed2 ref r row).status := by
  obtain ⟨label, res⟩ := row
  unfold reportRow
  rw [hs, ha]
  cases hst : r.status with
  | normal =>
    cases res with
    | error e => exact ⟨[], by simp⟩
    | ok time =>
      cases hp : printBenchmark fixed2 label time ref with
      | none => exact ⟨[], by simp [hp]⟩
      | some text => exact ⟨[text], by simp [hp]⟩
  | exited c => exact ⟨[], by simp [ha, hs, hst]⟩
  | terminated e => exact ⟨[], by simp [ha, hs, hst]⟩
  | undefined => exact ⟨[], by simp [ha, hs, hst]⟩

theorem foldl_reportRow_out_indep (fixed2 : ℚ → String) (ref : Sample)
    (rows : List (String × Except StdException Sample)) (r r0 : Run)
    (ha : r0.adapters = r.adapters) (hs : r0.status = r.status) :
    ∃ extra, (rows.foldl (reportRow fixed2 ref) r).out = r.out ++ extra ∧
      (rows.foldl (reportRow fixed2 ref) r0).out = r0.out ++ extra ∧
      (rows.foldl (reportRow fixed2 ref) r0).adapters =
        (rows.foldl (reportRow fixed2 ref) r).adapters ∧
      (rows.foldl (reportRow fixed2 ref) r0).status =
        (rows.foldl (reportRow fixed2 ref) r).status := by
  induction rows generalizing r r0 with
  | nil => exact ⟨[], by simp [ha, hs]⟩
  | cons row rest ih =>
    obtain ⟨e1, h1, h2, h3, h4⟩ := reportRow_out_indep fixed2 ref r r0 row ha hs
    obtain ⟨e2, g1, g2, g3, g4⟩ := ih (reportRow fixed2 ref r row) (reportRow fixed2 ref r0 row) h3 h4
    refine ⟨e1 ++ e2, ?_, ?_, g3, g4⟩
    · rw [List.foldl_cons, g1, h1, List.append_assoc]
    · rw [List.foldl_cons, g2, h2, List.append_assoc]

theorem foldl_reportRow_length (fixed2 : ℚ → String) (ref : Sample)
    (rows : List (String × Except StdException Sample)) (r : Run)
    (h : (rows.foldl (reportRow fixed2 ref) r).status = .normal) :
    (rows.foldl (reportRow fixed2 ref) r).out.length = r.out.length + rows.length := by
  induction rows generalizing r with
  | nil => rfl
  | cons row rest ih =>
    rw [List.foldl_cons] at h ⊢
    have h1 := foldl_reportRow_normal fixed2 ref rest _ h
    have h0 : r.status = .normal := by
      by_contra hc
      rw [reportRow_dead fixed2 ref r row hc] at h1
      exact hc h1
    rw [ih _ h]
    obtain ⟨label, res⟩ := row
    cases res with
    | error e => simp [reportRow, h0] at h1
    | ok s =>
      obtain ⟨text, _, heq⟩ := reportRow_normal fixed2 ref r label s h0 h1
      rw [heq]
      simp only [List.length_append, List.length_cons, List.length_nil]
      omega

theorem report_ok (fixed2 : ℚ → String) (label : String) (ref : Sample)
    (rest : List (String × Except StdException Sample)) (r : Run) :
    report fixed2 ((label, .ok ref) :: rest) r =
      ((label, Except.ok ref) :: rest).foldl (reportRow fixed2 ref) r := rfl

theorem percent_zero_ref (v : ℚ) : percent v 0 = none := by
  simp [percent]

theorem reportRow_print (fixed2 : ℚ → String) (ref : Sample) (r : Run) (label : String)
    (s : Sample) (text : String) (hr : r.status = .normal)
    (h : printBenchmark fixed2 label s ref = some text) :
    reportRow fixed2 ref r (label, .ok s) =
      ⟨r.out ++ [text], r.adapters ++ [label], .normal⟩ := by
  simp only [reportRow, hr, h]

theorem reportRow_undefined (fixed2 : ℚ → String) (ref : Sample) (r : Run) (label : String)
    (s : Sample) (hr : r.status = .normal) (h : printBenchmark fixed2 label s ref = none) :
    reportRow fixed2 ref r (label, .ok s) = ⟨r.out, r.adapters ++ [label], .undefined⟩ := by
  simp only [reportRow, hr, h]

theorem report_two (fixed2 : ℚ → String) (first second : String) (ref s : Sample) (r : Run) :
    report fixed2 [(first, .ok ref), (second, .ok s)] r =
      reportRow fixed2 ref (reportRow fixed2 ref r (first, .ok ref)) (second, .ok s) := rfl

theorem failed_reference_run :
    report twoDecimals
        [("uxs::db::json-DOM", .ok (0, 0)), ("uxs::db::json-SAX", .ok (1000000, 0))]
        ⟨[], [], .normal⟩ =
      ⟨[setw 25 "uxs::db::json-DOM" ++ naColumn ++ naColumn ++ "\n"],
        ["uxs::db::json-DOM", "uxs::db::json-SAX"], .undefined⟩ := by
  have h1 : printBenchmark twoDecimals "uxs::db::json-DOM" (0, 0) (0, 0) =
      some (setw 25 "uxs::db::json-DOM" ++ naColumn ++ naColumn ++ "\n") :=
    printBenchmark_failed twoDecimals _ _
  have hc : column twoDecimals 1000000 0 = none := by
    simp [column, percent_zero_ref]
  have h2 : printBenchmark twoDecimals "uxs::db::json-SAX" (1000000, 0) (0, 0) = none := by
    simp only [printBenchmark, hc]
  rw [report_two, reportRow_print _ _ _ _ _ _ rfl h1, reportRow_undefined _ _ _ _ _ rfl h2]
  rfl

theorem working_reference_run :
    report twoDecimals
        [("uxs::db::json-DOM", .ok (1000000, 1000000)),
          ("uxs::db::json-SAX", .ok (1000000, 0))]
        ⟨[], [], .normal⟩ =
      ⟨["        uxs::db::json-DOM                     1.00 MiB/s ( 100%)" ++
          "                     1.00 MiB/s ( 100%)\n",
        "        uxs::db::json-SAX                     1.00 MiB/s ( 100%)" ++
          "                      n/a              \n"],
        ["uxs::db::json-DOM", "uxs::db::json-SAX"], .normal⟩ := by
  have h1 : printBenchmark twoDecimals "uxs::db::json-DOM" (1000000, 1000000)
      (1000000, 1000000) = some ("        uxs::db::json-DOM                     1.00 MiB/s ( 100%)" ++
          "                     1.00 MiB/s ( 100%)\n") := by
    rw [printBenchmark_of_columns twoDecimals _ _ _ _ _ _ _
      (column_self twoDecimals 1000000 (by norm_num))
      (column_self twoDecimals 1000000 (by norm_num)), twoDecimals_one]
    decide
  have h2 : printBenchmark twoDecimals "uxs::db::json-SAX" (1000000, 0)
      (1000000, 1000000) = some ("        uxs::db::json-SAX                     1.00 MiB/s ( 100%)" ++
          "                      n/a              \n") := by
    rw [printBenchmark_of_columns twoDecimals _ _ _ _ _ _ _
      (column_self twoDecimals 1000000 (by norm_num)) (column_zero twoDecimals 1000000),
      twoDecimals_one]
    decide
  rw [report_two, reportRow_print _ _ _ _ _ _ rfl h1, reportRow_print _ _ _ _ _ _ rfl h2]
  rfl

/-- Claim C3 fails as stated at the first position: when the reference adapter
fails, the reference is `(0, 0)` and the next row with a non-zero sample
divides by it, so the rows after the failed one are not those of the run in
which it did not fail. -/
theorem failed_reference_changes_later_rows :
    (¬ ∀ (fixed2 : ℚ → String) (pre post : List (String × Except StdException Sample))
        (label : String) (s : Sample) (r : Run),
        (report fixed2 (pre ++ (label, .ok s) :: post) r).status = .normal →
        ∃ before text after,
          before.length = r.out.length + pre.length ∧
          (report fixed2 (pre ++ (label, .ok s) :: post) r).out = before ++ [text] ++ after ∧
          (report fixed2 (pre ++ (label, .ok (0, 0)) :: post) r).out =
            before ++ [setw 25 label ++ naColumn ++ naColumn ++ "\n"] ++ after) ∧
      report twoDecimals
          [("uxs::db::json-DOM", .ok (0, 0)), ("uxs::db::json-SAX", .ok (1000000, 0))]
          ⟨[], [], .normal⟩ =
        ⟨[setw 25 "uxs::db::json-DOM" ++ naColumn ++ naColumn ++ "\n"],
          ["uxs::db::json-DOM", "uxs::db::json-SAX"], .undefined⟩ ∧
      report twoDecimals
          [("uxs::db::json-DOM", .ok (1000000, 1000000)),
            ("uxs::db::json-SAX", .ok (1000000, 0))]
          ⟨[], [], .normal⟩ =
        ⟨["        uxs::db::json-DOM                     1.00 MiB/s ( 100%)" ++
            "                     1.00 MiB/s ( 100%)\n",
          "        uxs::db::json-SAX                     1.00 MiB/s ( 100%)" ++
            "                      n/a              \n"],
          ["uxs::db::json-DOM", "uxs::db::json-SAX"], .normal⟩ := by
  refine ⟨?_, failed_reference_run, working_reference_run⟩
  intro h
  have hgood : (report twoDecimals ([] ++ ("uxs::db::json-DOM", .ok (1000000, 1000000)) ::
      [("uxs::db::json-SAX", .ok (1000000, 0))]) ⟨[], [], .normal⟩).status = .normal := by
    rw [List.nil_append, working_reference_run]
  obtain ⟨before, text, after, hlen, hg, hb⟩ := h twoDecimals []
    [("uxs::db::json-SAX", .ok (1000000, 0))] "uxs::db::json-DOM" (1000000, 1000000)
    ⟨[], [], .normal⟩ hgood
  rw [List.nil_append, working_reference_run] at hg
  rw [List.nil_append, failed_reference_run] at hb
  have hglen := congrArg List.length hg
  have hblen := congrArg List.length hb
  simp only [List.length_append, List.length_cons, List.length_nil] at hglen hblen
  omega

/-- Claim C3, amended. A sample `(0, 0)` is printed as `n/a` in both columns at
every position and against every reference; and when an adapter after the
reference one fails, in a run that gets as far as printing that adapter's row
when it does not fail, the run prints the same lines, calls the same adapters
and ends in the same status, with only that adapter's row replaced. -/
theorem failure_isolated_after_reference (fixed2 : ℚ → String) (first : String) (ref : Sample)
    (pre post : List (String × Except StdException Sample)) (label : String) (s : Sample)
    (r : Run)
    (hgood : (report fixed2 ((first, .ok ref) :: (pre ++ [(label, .ok s)])) r).status
      = .normal) :
    (∀ anyRef : Sample, printBenchmark fixed2 label (0, 0) anyRef =
        some (setw 25 label ++ "                      n/a              " ++
          "                      n/a              " ++ "\n")) ∧
      ∃ before text after,
        before.length = r.out.length + 1 + pre.length ∧
        printBenchmark fixed2 label s ref = some text ∧
        (report fixed2 ((first, .ok ref) :: (pre ++ (label, .ok s) :: post)) r).out =
          before ++ [text] ++ after ∧
        (report fixed2 ((first, .ok ref) :: (pre ++ (label, .ok (0, 0)) :: post)) r).out =
          before ++ [setw 25 label ++ "                      n/a              " ++
            "                      n/a              " ++ "\n"] ++ after ∧
        (report fixed2 ((first, .ok ref) :: (pre ++ (label, .ok (0, 0)) :: post)) r).adapters =
          (report fixed2 ((first, .ok ref) :: (pre ++ (label, .ok s) :: post)) r).adapters ∧
        (report fixed2 ((first, .ok ref) :: (pre ++ (label, .ok (0, 0)) :: post)) r).status =
          (report fixed2 ((first, .ok ref) :: (pre ++ (label, .ok s) :: post)) r).status := by
  rw [← naColumn_text]
  refine ⟨fun anyRef => printBenchmark_failed fixed2 label anyRef, ?_⟩
  have hsplit : ∀ (x : String × Except StdException Sample)
      (rest : List (String × Except StdException Sample)),
      report fixed2 ((first, .ok ref) :: (pre ++ x :: rest)) r =
        rest.foldl (reportRow fixed2 ref)
          (reportRow fixed2 ref (((first, Except.ok ref) :: pre).foldl (reportRow fixed2 ref) r) x) := by
    intro x rest
    rw [report_ok, ← List.cons_append, List.foldl_append, List.foldl_cons]
  rw [hsplit, List.foldl_nil] at hgood
  rw [hsplit, hsplit]
  generalize hR1 : ((first, Except.ok ref) :: pre).foldl (reportRow fixed2 ref) r = R1
    at hgood ⊢
  have h1 : R1.status = .normal := by
    by_contra hc
    rw [reportRow_dead fixed2 ref R1 _ hc] at hgood
    exact hc hgood
  obtain ⟨text, htext, hrow⟩ := reportRow_normal fixed2 ref R1 label s h1 hgood
  have hrow0 : reportRow fixed2 ref R1 (label, .ok (0, 0)) =
      ⟨R1.out ++ [setw 25 label ++ naColumn ++ naColumn ++ "\n"], R1.adapters ++ [label],
        .normal⟩ := by
    simp only [reportRow, h1, printBenchmark_failed]
  have hlen : R1.out.length = r.out.length + 1 + pre.length := by
    rw [← hR1] at h1 ⊢
    rw [foldl_reportRow_length fixed2 ref _ r h1]
    simp only [List.length_cons]
    omega
  rw [hrow, hrow0]
  obtain ⟨extra, g1, g2, g3, g4⟩ := foldl_reportRow_out_indep fixed2 ref post
    ⟨R1.out ++ [text], R1.adapters ++ [label], .normal⟩
    ⟨R1.out ++ [setw 25 label ++ naColumn ++ naColumn ++ "\n"], R1.adapters ++ [label], .normal⟩
    rfl rfl
  exact ⟨R1.out, text, extra, hlen, htext, g1, g2, g3, g4⟩

theorem failure_isolated_after_reference_witness :
    ∃ before text after : List String,
      (report twoDecimals (("uxs::db::json-DOM", .ok (1000000, 1000000)) ::
        ([] ++ ("uxs::db::json-SAX", .ok (1000000, 0)) ::
          [("rapidjson", .ok (1000000, 1000000))])) ⟨[], [], .normal⟩).out =
        before ++ text ++ after ∧
      (report twoDecimals (("uxs::db::json-DOM", .ok (1000000, 1000000)) ::
        ([] ++ ("uxs::db::json-SAX", .ok (0, 0)) ::
          [("rapidjson", .ok (1000000, 1000000))])) ⟨[], [], .normal⟩).out =
        before ++ [setw 25 "uxs::db::json-SAX" ++ "                      n/a              " ++
            "                      n/a              " ++ "\n"] ++ after := by
  obtain ⟨_, before, text, after, _, _, hg, hb, _, _⟩ :=
    failure_isolated_after_reference twoDecimals "uxs::db::json-DOM" (1000000, 1000000) []
      [("rapidjson", .ok (1000000, 1000000))] "uxs::db::json-SAX" (1000000, 0)
      ⟨[], [], .normal⟩
      (by rw [List.nil_append, working_reference_run])
  exact ⟨before, [text], after, hg, hb⟩

/-! ### Corpus loading -/

end JsonBenchmark
